import Mathlib

/-!
Verification development for the record-classification pipeline of the
email-triage repository: condition evaluator, rule engine (exclusion and
security passes), whitelist matching, ML risk fusion, and the workflow
orchestrator.  All definitions are shallow embeddings of the Python source
(`rule_engine.py`, `ml_engine.py`, `domain_manager.py`, `data_processor.py`,
`models.py`).  Python strings are modelled as Lean `String` with ASCII
case-folding; Python floats as `ℚ`; SQL NULL as `Option`; JSON values as an
inductive `JVal`.  The two stdlib collaborators that are not repository code
are abstracted: `re`-module regex search is a function parameter of type
`RegexSearch`, and the fitted sklearn scoring path of the anomaly detector is
a function parameter of type `AnomalyFit` (only reached for 10 or more rows).
-/

namespace DlpTriage

/-! ## Python-style string primitives

Python `str` operations used by the source, re-implemented on the character
list so that every definition reduces by `decide`/`rfl`.  Case folding is
ASCII (the source data is ASCII); `strip` removes ASCII whitespace. -/

def charLower (c : Char) : Char :=
  if 65 ≤ c.toNat && c.toNat ≤ 90 then Char.ofNat (c.toNat + 32) else c

def charUpper (c : Char) : Char :=
  if 97 ≤ c.toNat && c.toNat ≤ 122 then Char.ofNat (c.toNat - 32) else c

def charEqB (a b : Char) : Bool := a.toNat == b.toNat

def wsChar (c : Char) : Bool :=
  c.toNat == 32 || c.toNat == 9 || c.toNat == 10 || c.toNat == 11 ||
  c.toNat == 12 || c.toNat == 13

def lowerS (s : String) : String := ⟨s.data.map charLower⟩

def upperS (s : String) : String := ⟨s.data.map charUpper⟩

/-- Python `str.strip()`: drop whitespace from both ends. -/
def trimS (s : String) : String :=
  ⟨((s.data.dropWhile wsChar).reverse.dropWhile wsChar).reverse⟩

def isPrefixOfB : List Char → List Char → Bool
  | [], _ => true
  | _ :: _, [] => false
  | a :: as, b :: bs => charEqB a b && isPrefixOfB as bs

def isInfixOfB (needle : List Char) : List Char → Bool
  | [] => needle.isEmpty
  | b :: bs => isPrefixOfB needle (b :: bs) || isInfixOfB needle bs

/-- Python `sub in hay` on strings: contiguous substring containment. -/
def containsS (hay sub : String) : Bool := isInfixOfB sub.data hay.data

def startsWithS (s pre : String) : Bool := isPrefixOfB pre.data s.data

def endsWithS (s post : String) : Bool :=
  isPrefixOfB post.data.reverse s.data.reverse

def strEqB (a b : String) : Bool :=
  a.data.length == b.data.length && isPrefixOfB a.data b.data

/-- Python `s.split(",")`: split on every comma, keeping empty pieces. -/
def splitCommaChars : List Char → List (List Char)
  | [] => [[]]
  | c :: cs =>
    let rest := splitCommaChars cs
    if c.toNat == 44 then [] :: rest
    else match rest with
         | [] => [[c]]
         | h :: t => (c :: h) :: t

def splitCommaS (s : String) : List String :=
  (splitCommaChars s.data).map (fun cs => ⟨cs⟩)

/-! ## JSON values

The `conditions` and `actions` columns of `Rule` are JSON; at run time the
engine sees Python dicts, lists, strings, numbers, booleans and `None`.
`JVal` models that value space; dicts are association lists.  Arrays and
object field lists are their own mutually-inductive list types so that every
recursion over a JSON tree is structural (and hence reduces definitionally);
`jlist`/`jfields` build them from ordinary lists. -/

mutual

inductive JVal where
  | jnull
  | jbool (b : Bool)
  | jnum (q : ℚ)
  | jstr (s : String)
  | jarr (xs : JList)
  | jobj (fields : JFields)

inductive JList where
  | nil
  | cons (v : JVal) (tl : JList)

inductive JFields where
  | nil
  | cons (k : String) (v : JVal) (tl : JFields)

end

def jlist : List JVal → JList
  | [] => .nil
  | v :: vs => .cons v (jlist vs)

def jfields : List (String × JVal) → JFields
  | [] => .nil
  | p :: ps => .cons p.1 p.2 (jfields ps)

def JList.toList : JList → List JVal
  | .nil => []
  | .cons v tl => v :: tl.toList

def JList.isNil : JList → Bool
  | .nil => true
  | .cons _ _ => false

def JFields.isNil : JFields → Bool
  | .nil => true
  | .cons _ _ _ => false

def JFields.keys : JFields → List String
  | .nil => []
  | .cons k _ tl => k :: tl.keys

/-- Python `dict.get`: a dict built from JSON keeps the last duplicate key,
so a later binding for the same key shadows an earlier one. -/
def jget : JFields → String → Option JVal
  | .nil, _ => none
  | .cons k v tl, key =>
    match jget tl key with
    | some r => some r
    | none => if strEqB k key then some v else none

def jgetD (fs : JFields) (k : String) (d : JVal) : JVal :=
  (jget fs k).getD d

def hasKey (fs : JFields) (k : String) : Bool :=
  (jget fs k).isSome

/- Structural fuel for the nested-condition evaluator: an upper bound on
the nesting depth of a JSON tree. -/
mutual

def jfuel : JVal → ℕ
  | .jnull => 1
  | .jbool _ => 1
  | .jnum _ => 1
  | .jstr _ => 1
  | .jarr xs => 1 + jfuelL xs
  | .jobj fs => 1 + jfuelF fs

def jfuelL : JList → ℕ
  | .nil => 0
  | .cons v tl => jfuel v + jfuelL tl

def jfuelF : JFields → ℕ
  | .nil => 0
  | .cons _ v tl => jfuel v + jfuelF tl

end

/-- Python truthiness of a JSON value (`if v:`). -/
def pyTruthy : JVal → Bool
  | .jnull => false
  | .jbool b => b
  | .jnum q => decide (q ≠ 0)
  | .jstr s => !s.data.isEmpty
  | .jarr xs => !xs.isNil
  | .jobj fs => !fs.isNil

/-- Python truthiness of a nullable string column (`if record.excluded_by_rule:`). -/
def pyTruthyStr : Option String → Bool
  | none => false
  | some s => !s.data.isEmpty

/-- Python `str()` of a JSON value.  Exact for strings, booleans and null —
the only cases the pipeline exercises; numbers and containers are rendered
schematically (no claim and no evaluated code path depends on them). -/
def pyStrJ : JVal → String
  | .jnull => "None"
  | .jbool b => if b then "True" else "False"
  | .jnum q => toString q.num ++ "/" ++ toString q.den
  | .jstr s => s
  | .jarr _ => "[...]"
  | .jobj _ => "\x7b...\x7d"

/-- Python iteration `for x in v`: lists yield members, strings yield their
characters, dicts yield their keys; numbers, booleans and `None` raise
`TypeError` (modelled as `none`). -/
def pyIter : JVal → Option (List JVal)
  | .jarr xs => some xs.toList
  | .jstr s => some (s.data.map (fun c => .jstr ⟨[c]⟩))
  | .jobj fs => some (fs.keys.map (fun k => .jstr k))
  | _ => none

/-! ## Python float parsing

`float(x)` as used by `greater_than`/`less_than` and `score_modifier`.
Handles sign, integer/fractional digits and an exponent; the special
spellings `inf`/`nan` are modelled as a parse failure (no claim touches
them). -/

def digitVal (c : Char) : Option ℕ :=
  if 48 ≤ c.toNat && c.toNat ≤ 57 then some (c.toNat - 48) else none

def readDigits : List Char → List ℕ × List Char
  | [] => ([], [])
  | c :: cs =>
    match digitVal c with
    | some d => let (ds, r) := readDigits cs; (d :: ds, r)
    | none => ([], c :: cs)

def natOfDigits (ds : List ℕ) : ℕ := ds.foldl (fun a d => a * 10 + d) 0

def pyFloatS (s : String) : Option ℚ :=
  let cs0 := (trimS s).data
  let sp : ℚ × List Char :=
    match cs0 with
    | c :: rest =>
      if c.toNat == 45 then (-1, rest)
      else if c.toNat == 43 then (1, rest) else (1, cs0)
    | [] => (1, [])
  let sgn := sp.1
  let (ip, cs1) := readDigits sp.2
  let fr : List ℕ × List Char :=
    match cs1 with
    | c :: rest => if c.toNat == 46 then readDigits rest else ([], cs1)
    | [] => ([], [])
  let (fp, cs2) := fr
  if ip.isEmpty && fp.isEmpty then none
  else
    let base : ℚ := (natOfDigits ip : ℚ) + (natOfDigits fp : ℚ) / ((10 : ℚ) ^ fp.length)
    match cs2 with
    | [] => some (sgn * base)
    | e :: rest =>
      if e.toNat == 101 || e.toNat == 69 then
        let ep : ℤ × List Char :=
          match rest with
          | c :: r2 =>
            if c.toNat == 45 then (-1, r2)
            else if c.toNat == 43 then (1, r2) else (1, rest)
          | [] => (1, [])
        let (ed, rest2) := readDigits ep.2
        if ed.isEmpty || !rest2.isEmpty then none
        else some (sgn * base * (10 : ℚ) ^ (ep.1 * (natOfDigits ed : ℤ)))
      else none

/-- Python `float()` applied to a JSON value. -/
def pyFloatJ : JVal → Option ℚ
  | .jnum q => some q
  | .jbool b => some (if b then 1 else 0)
  | .jstr s => pyFloatS s
  | _ => none

/-! ## JSON parsing (`json.loads`)

String-typed rule conditions are parsed before evaluation.  Fuel-indexed
recursive-descent parser over the character list; the wrapper supplies fuel
sufficient for any input of the given length. -/

def jsonWs (c : Char) : Bool :=
  c.toNat == 32 || c.toNat == 9 || c.toNat == 10 || c.toNat == 13

def hexVal (c : Char) : Option ℕ :=
  if 48 ≤ c.toNat && c.toNat ≤ 57 then some (c.toNat - 48)
  else if 97 ≤ c.toNat && c.toNat ≤ 102 then some (c.toNat - 87)
  else if 65 ≤ c.toNat && c.toNat ≤ 70 then some (c.toNat - 55)
  else none

def parseStrChars : ℕ → List Char → Option (List Char × List Char)
  | 0, _ => none
  | _, [] => none
  | fuel + 1, c :: cs =>
    if c.toNat == 34 then some ([], cs)
    else if c.toNat == 92 then
      match cs with
      | [] => none
      | e :: cs2 =>
        let cont (ch : Char) (rest : List Char) : Option (List Char × List Char) :=
          match parseStrChars fuel rest with
          | some (r, tail) => some (ch :: r, tail)
          | none => none
        if e.toNat == 34 then cont (Char.ofNat 34) cs2
        else if e.toNat == 92 then cont (Char.ofNat 92) cs2
        else if e.toNat == 47 then cont (Char.ofNat 47) cs2
        else if e.toNat == 98 then cont (Char.ofNat 8) cs2
        else if e.toNat == 102 then cont (Char.ofNat 12) cs2
        else if e.toNat == 110 then cont (Char.ofNat 10) cs2
        else if e.toNat == 114 then cont (Char.ofNat 13) cs2
        else if e.toNat == 116 then cont (Char.ofNat 9) cs2
        else if e.toNat == 117 then
          match cs2 with
          | a :: b :: c2 :: d :: cs3 =>
            match hexVal a, hexVal b, hexVal c2, hexVal d with
            | some ha, some hb, some hc, some hd =>
              cont (Char.ofNat (((ha * 16 + hb) * 16 + hc) * 16 + hd)) cs3
            | _, _, _, _ => none
          | _ => none
        else none
    else
      match parseStrChars fuel cs with
      | some (r, tail) => some (c :: r, tail)
      | none => none

/-- Parse a JSON number starting at `cs` (leading `-` included). -/
def parseJNum (cs : List Char) : Option (ℚ × List Char) :=
  let sp : ℚ × List Char :=
    match cs with
    | c :: rest => if c.toNat == 45 then (-1, rest) else (1, cs)
    | [] => (1, [])
  let (ip, cs1) := readDigits sp.2
  if ip.isEmpty then none
  else
    let fr : List ℕ × List Char :=
      match cs1 with
      | c :: rest =>
        if c.toNat == 46 then
          match readDigits rest with
          | ([], _) => ([], cs1)
          | (fs, r) => (fs, r)
        else ([], cs1)
      | [] => ([], [])
    let (fp, cs2) := fr
    let base : ℚ := (natOfDigits ip : ℚ) + (natOfDigits fp : ℚ) / ((10 : ℚ) ^ fp.length)
    match cs2 with
    | e :: rest =>
      if e.toNat == 101 || e.toNat == 69 then
        let ep : ℤ × List Char :=
          match rest with
          | c :: r2 =>
            if c.toNat == 45 then (-1, r2)
            else if c.toNat == 43 then (1, r2) else (1, rest)
          | [] => (1, [])
        let (ed, rest2) := readDigits ep.2
        if ed.isEmpty then none
        else some (sp.1 * base * (10 : ℚ) ^ (ep.1 * (natOfDigits ed : ℤ)), rest2)
      else some (sp.1 * base, cs2)
    | [] => some (sp.1 * base, [])

mutual

def parseVal : ℕ → List Char → Option (JVal × List Char)
  | 0, _ => none
  | fuel + 1, cs =>
    match cs.dropWhile jsonWs with
    | [] => none
    | c :: rest =>
      if c.toNat == 110 then
        match rest with
        | u :: l1 :: l2 :: tail =>
          if u.toNat == 117 && l1.toNat == 108 && l2.toNat == 108 then
            some (.jnull, tail)
          else none
        | _ => none
      else if c.toNat == 116 then
        match rest with
        | r :: u :: e :: tail =>
          if r.toNat == 114 && u.toNat == 117 && e.toNat == 101 then
            some (.jbool true, tail)
          else none
        | _ => none
      else if c.toNat == 102 then
        match rest with
        | a :: l :: s :: e :: tail =>
          if a.toNat == 97 && l.toNat == 108 && s.toNat == 115 && e.toNat == 101 then
            some (.jbool false, tail)
          else none
        | _ => none
      else if c.toNat == 34 then
        match parseStrChars (rest.length + 1) rest with
        | some (chars, tail) => some (.jstr ⟨chars⟩, tail)
        | none => none
      else if c.toNat == 91 then
        match (rest.dropWhile jsonWs) with
        | d :: tail2 =>
          if d.toNat == 93 then some (.jarr .nil, tail2)
          else
            match parseArrItems fuel rest with
            | some (xs, tail) => some (.jarr (jlist xs), tail)
            | none => none
        | [] => none
      else if c.toNat == 123 then
        match (rest.dropWhile jsonWs) with
        | d :: tail2 =>
          if d.toNat == 125 then some (.jobj .nil, tail2)
          else
            match parseObjItems fuel rest with
            | some (fs, tail) => some (.jobj (jfields fs), tail)
            | none => none
        | [] => none
      else
        match parseJNum (c :: rest) with
        | some (q, tail) => some (.jnum q, tail)
        | none => none

def parseArrItems : ℕ → List Char → Option (List JVal × List Char)
  | 0, _ => none
  | fuel + 1, cs =>
    match parseVal fuel cs with
    | none => none
    | some (v, rest) =>
      match rest.dropWhile jsonWs with
      | c :: tail =>
        if c.toNat == 44 then
          match parseArrItems fuel tail with
          | some (vs, tail2) => some (v :: vs, tail2)
          | none => none
        else if c.toNat == 93 then some ([v], tail)
        else none
      | [] => none

def parseObjItems : ℕ → List Char → Option (List (String × JVal) × List Char)
  | 0, _ => none
  | fuel + 1, cs =>
    match cs.dropWhile jsonWs with
    | c :: rest =>
      if c.toNat == 34 then
        match parseStrChars (rest.length + 1) rest with
        | some (kchars, rest2) =>
          match rest2.dropWhile jsonWs with
          | d :: rest3 =>
            if d.toNat == 58 then
              match parseVal fuel rest3 with
              | some (v, rest4) =>
                match rest4.dropWhile jsonWs with
                | e :: tail =>
                  if e.toNat == 44 then
                    match parseObjItems fuel tail with
                    | some (fs, tail2) => some ((⟨kchars⟩, v) :: fs, tail2)
                    | none => none
                  else if e.toNat == 125 then some ([(⟨kchars⟩, v)], tail)
                  else none
                | [] => none
              | none => none
            else none
          | [] => none
        | none => none
      else none
    | [] => none

end

/-- Python `json.loads`: parse, requiring only trailing whitespace after the
value; failure models `json.JSONDecodeError`. -/
def parseJson (s : String) : Option JVal :=
  match parseVal (s.data.length + 2) s.data with
  | some (v, rest) => if (rest.dropWhile jsonWs).isEmpty then some v else none
  | none => none

/-! ## Data model (`models.py`)

SQL NULL is `Option`; the CSV columns of `EmailRecord` are grouped into
`CsvFields` (they are written once at ingestion — `_process_chunk` stores a
string, defaulting to the empty string, for every column — and never mutated
by any pipeline stage), while the mutable classification outputs live
directly on `Record`.  `rule_matches` is stored structurally rather than as
its `json.dumps` serialization. -/

def RegexSearch := String → String → Bool

structure CsvFields where
  time : String
  sender : String
  subject : String
  attachments : String
  recipients : String
  recipientsEmailDomain : String
  leaver : String
  terminationDate : String
  wordlistAttachment : String
  wordlistSubject : String
  bunit : String
  department : String
  status : String
  userResponse : String
  finalOutcome : String
  justification : String
  policyName : String

structure MatchEntry where
  ruleId : ℤ
  ruleName : String
  description : Option String
  priority : ℤ
  actions : JVal

structure Record where
  recordId : String
  csv : CsvFields
  excludedByRule : Option String
  whitelisted : Option Bool
  ruleMatches : Option (List MatchEntry)
  mlRiskScore : Option ℚ
  mlAnomalyScore : Option ℚ
  riskLevel : Option String
  mlExplanation : Option String
  caseStatus : String
  assignedTo : Option String
  notes : Option String
  escalated : Bool

structure Rule where
  id : ℤ
  name : String
  description : Option String
  ruleType : Option String
  conditions : JVal
  actions : JVal
  priority : ℤ
  isActive : Bool

structure WhitelistEntry where
  domain : String
  isActive : Bool

/-- An `AttachmentKeyword` row; `risk_score` is an integer 1–10 scale. -/
structure Keyword where
  keyword : String
  category : String
  riskScore : ℕ
  isActive : Bool

/-- Field access for the condition evaluator
(`RuleEngine._get_field_value`): a `getattr` over any record attribute,
caught to `None` on error.  Because conditions can be stored without
`validate_rule_conditions` (only `import_rules` validates), a stored rule
may name any attribute, so the mutable classification outputs are exposed
here alongside the CSV columns.  String-typed columns are modelled exactly
(a NULL column yields `none`, stringified to `"None"` on the raw regex and
float paths, like Python `str(None)`).  The non-string columns
(`whitelisted`, `ml_risk_score`, `ml_anomaly_score`, `rule_matches`, the
timestamps and numeric ids) and non-column attributes are modelled as
absent — a documented boundary of the embedding; no claim and no fixture
stores a rule conditioned on them. -/
def getFieldValue (r : Record) (f : String) : Option String :=
  if strEqB f "time" then some r.csv.time
  else if strEqB f "sender" then some r.csv.sender
  else if strEqB f "subject" then some r.csv.subject
  else if strEqB f "attachments" then some r.csv.attachments
  else if strEqB f "recipients" then some r.csv.recipients
  else if strEqB f "recipients_email_domain" then some r.csv.recipientsEmailDomain
  else if strEqB f "leaver" then some r.csv.leaver
  else if strEqB f "termination_date" then some r.csv.terminationDate
  else if strEqB f "wordlist_attachment" then some r.csv.wordlistAttachment
  else if strEqB f "wordlist_subject" then some r.csv.wordlistSubject
  else if strEqB f "bunit" then some r.csv.bunit
  else if strEqB f "department" then some r.csv.department
  else if strEqB f "status" then some r.csv.status
  else if strEqB f "user_response" then some r.csv.userResponse
  else if strEqB f "final_outcome" then some r.csv.finalOutcome
  else if strEqB f "justification" then some r.csv.justification
  else if strEqB f "policy_name" then some r.csv.policyName
  else if strEqB f "record_id" then some r.recordId
  else if strEqB f "excluded_by_rule" then r.excludedByRule
  else if strEqB f "risk_level" then r.riskLevel
  else if strEqB f "ml_explanation" then r.mlExplanation
  else if strEqB f "case_status" then some r.caseStatus
  else if strEqB f "assigned_to" then r.assignedTo
  else if strEqB f "notes" then r.notes
  else none

/-! ## Condition evaluator (`rule_engine.py`)

`_apply_operator_with_regex` normalizes both sides — stringify, strip,
lowercase, map common empty representations to the empty string — before
comparing; `regex` and the numeric operators work on the raw values. -/

def normalizeEmptyS (s : String) : String :=
  if ["", "none", "null", "n/a", "na", "nil"].any (fun t => strEqB s t) then ""
  else s

/-- Normalized record-side value: `str(v).strip().lower()` with the
empty-representation collapse, and `""` for `None`. -/
def normValue (v : Option String) : String :=
  match v with
  | none => ""
  | some s => normalizeEmptyS (lowerS (trimS s))

/-- Normalized condition-side value (same treatment of the JSON value). -/
def normCondValue (v : Option JVal) : String :=
  match v with
  | none => ""
  | some .jnull => ""
  | some w => normalizeEmptyS (lowerS (trimS (pyStrJ w)))

/-- Raw `str(record_value)` as handed to the regex path. -/
def rawRecordStr : Option String → String
  | none => "None"
  | some s => s

/-- Raw `str(condition_value)` as handed to the regex path. -/
def rawCondStr : Option JVal → String
  | none => "None"
  | some v => pyStrJ v

def pyTruthyO : Option JVal → Bool
  | none => false
  | some v => pyTruthy v

/-- One operator application (`_apply_operator_with_regex`); total because
every exception inside the Python function is caught and turned into
`False`. -/
def applyOperatorWithRegex (rx : RegexSearch) (recordValue : Option String)
    (op : String) (condValue : Option JVal) : Bool :=
  let recordStr := normValue recordValue
  let condStr := normCondValue condValue
  if strEqB op "equals" then strEqB recordStr condStr
  else if strEqB op "contains" then containsS recordStr condStr
  else if strEqB op "not_equals" then !(strEqB recordStr condStr)
  else if strEqB op "not_contains" then !(containsS recordStr condStr)
  else if strEqB op "starts_with" then startsWithS recordStr condStr
  else if strEqB op "ends_with" then endsWithS recordStr condStr
  else if strEqB op "regex" then rx (rawCondStr condValue) (rawRecordStr recordValue)
  else if strEqB op "greater_than" then
    match recordValue.bind pyFloatS, condValue.bind pyFloatJ with
    | some a, some b => decide (b < a)
    | _, _ => false
  else if strEqB op "less_than" then
    match recordValue.bind pyFloatS, condValue.bind pyFloatJ with
    | some a, some b => decide (a < b)
    | _, _ => false
  else if strEqB op "in_list" then
    match condValue with
    | some (.jarr xs) => xs.toList.any (fun v => strEqB recordStr (lowerS (pyStrJ v)))
    | _ =>
      ((splitCommaS (rawCondStr condValue)).map (fun v => lowerS (trimS v))).any
        (fun v => strEqB recordStr v)
  else if strEqB op "is_empty" then strEqB recordStr ""
  else if strEqB op "is_not_empty" then !(strEqB recordStr "")
  else false

/-- One leaf condition (`_evaluate_single_condition`); exceptions — a
non-dict condition, a non-string field name — are caught and yield `False`. -/
def evalSingleCondition (rx : RegexSearch) (r : Record) (cond : JVal) : Bool :=
  match cond with
  | .jobj fs =>
    let fieldV := jget fs "field"
    let opV := jget fs "operator"
    if !pyTruthyO fieldV || !pyTruthyO opV then false
    else
      let recordValue :=
        match fieldV with
        | some (.jstr f) => getFieldValue r f
        | _ => none
      match opV with
      | some (.jstr op) => applyOperatorWithRegex rx recordValue op (jget fs "value")
      | _ => false
  | _ => false

/-- Nested AND/OR evaluation (`_evaluate_complex_conditions`), fuel-indexed
for termination; `none` models an uncaught exception inside the function
(non-string `logic`, iterating a non-iterable `conditions` value), which the
caller's `try` turns into `False`.  An untruthy child list — in particular
the empty list — yields `False` before any iteration. -/
def evalComplexF (rx : RegexSearch) (r : Record) :
    ℕ → JFields → Option Bool
  | 0, _ => none
  | fuel + 1, fs =>
    match jgetD fs "logic" (.jstr "AND") with
    | .jstr logicS =>
      let condV := jgetD fs "conditions" (.jarr .nil)
      if !pyTruthy condV then some false
      else
        match pyIter condV with
        | none => none
        | some children =>
          let step := fun (acc : Option (List Bool)) (child : JVal) =>
            match acc with
            | none => none
            | some bs =>
              match child with
              | .jobj cfs =>
                if hasKey cfs "logic" then
                  match evalComplexF rx r fuel cfs with
                  | none => none
                  | some b => some (bs ++ [b])
                else some (bs ++ [evalSingleCondition rx r child])
              | _ => some (bs ++ [evalSingleCondition rx r child])
          match children.foldl step (some []) with
          | none => none
          | some results =>
            if strEqB (upperS logicS) "OR" then some (results.any id)
            else some (results.all id)
    | _ => none

/-- Evaluation of already-parsed JSON conditions
(`_evaluate_rule_conditions_with_parsed`).  Note the list branch: `all`
over an empty generator is vacuously `True`, unlike the sibling branch for
an unparsed list in `evalRuleConditions`. -/
def evalParsedConditions (rx : RegexSearch) (r : Record) (v : JVal) : Bool :=
  match v with
  | .jobj fs =>
    if hasKey fs "logic" && hasKey fs "conditions" then
      (evalComplexF rx r (jfuel v + 1) fs).getD false
    else evalSingleCondition rx r v
  | .jarr xs => xs.toList.all (fun cond => evalSingleCondition rx r cond)
  | _ => false

/-- Top-level rule-condition evaluation (`_evaluate_rule_conditions`): total;
the outer `try` maps any escaped exception to `False`. -/
def evalRuleConditions (rx : RegexSearch) (r : Record) (conds : JVal) : Bool :=
  if !pyTruthy conds then false
  else
    let fuel := jfuel conds + 1
    match conds with
    | .jobj fs =>
      if hasKey fs "logic" && hasKey fs "conditions" then
        (evalComplexF rx r fuel fs).getD false
      else evalSingleCondition rx r conds
    | .jarr xs =>
      if xs.isNil then false
      else (xs.toList.map (fun cond => evalSingleCondition rx r cond)).all id
    | .jstr s =>
      match parseJson s with
      | some v => evalParsedConditions rx r v
      | none => false
    | _ => false

def evalRule (rx : RegexSearch) (r : Record) (rule : Rule) : Bool :=
  evalRuleConditions rx r rule.conditions

/-! ## Rule actions (`RuleEngine._apply_rule_actions`)

Actions are applied in source order: `escalate`, `flag`, `score_modifier`,
`tag`, `assign_to`.  The whole body sits under a single `try`, so a
`float()` failure in `score_modifier` silently skips the remaining `tag` and
`assign_to` actions while keeping the effects already applied. -/

def newlineS : String := ⟨[Char.ofNat 10]⟩

def addNote (r : Record) (msg : String) : Record :=
  let txt := if pyTruthyStr r.notes then r.notes.getD "" ++ newlineS ++ msg else msg
  { r with notes := some txt }

def applyTagAssign (r : Record) (fs : JFields) : Record :=
  let r1 :=
    if pyTruthyO (jget fs "tag") then
      addNote r ("Tag: " ++ pyStrJ (jgetD fs "tag" .jnull))
    else r
  if pyTruthyO (jget fs "assign_to") then
    { r1 with assignedTo := some (pyStrJ (jgetD fs "assign_to" .jnull)) }
  else r1

def applyRuleActions (r : Record) (rule : Rule) : Record :=
  if !pyTruthy rule.actions then r
  else
    match rule.actions with
    | .jobj fs =>
      let r1 :=
        if pyTruthyO (jget fs "escalate") then
          { r with caseStatus := "Escalated", escalated := true }
        else r
      let r2 :=
        if pyTruthyO (jget fs "flag") then
          let msg :=
            match jget fs "flag_message" with
            | some v => pyStrJ v
            | none => "Flagged by rule: " ++ rule.name
          addNote r1 msg
        else r1
      if pyTruthyO (jget fs "score_modifier") then
        match pyFloatJ (jgetD fs "score_modifier" (.jnum 0)) with
        | none => r2
        | some m =>
          let newScore :=
            match r2.mlRiskScore with
            | some p => min (max (p + m) 0) 1
            | none => max m 0
          applyTagAssign { r2 with mlRiskScore := some newScore } fs
      else applyTagAssign r2 fs
    | _ => r

/-! ## Exclusion pass (`RuleEngine.apply_exclusion_rules`)

Active exclusion rules, sorted by descending priority; a record already
carrying a truthy `excluded_by_rule` is skipped, otherwise the first
matching rule tags it and stops further testing. -/

def sortByPriorityDesc (rules : List Rule) : List Rule :=
  List.insertionSort (fun a b => b.priority ≤ a.priority) rules

def activeExclusionRules (rules : List Rule) : List Rule :=
  sortByPriorityDesc (rules.filter (fun ru => ru.isActive && ru.ruleType == some "exclusion"))

def excludeRecord (rx : RegexSearch) (rules : List Rule) (r : Record) : Record :=
  if pyTruthyStr r.excludedByRule then r
  else
    match rules.find? (fun rule => evalRule rx r rule) with
    | some rule => { r with excludedByRule := some rule.name }
    | none => r

def applyExclusionRules (rx : RegexSearch) (rules : List Rule) (records : List Record) :
    List Record :=
  let active := activeExclusionRules rules
  if active.isEmpty then records
  else records.map (excludeRecord rx active)

/-! ## Security pass (`RuleEngine.apply_security_rules`)

Every active rule whose `rule_type` is `security` **or NULL** is tested
against every non-excluded, non-whitelisted record; matches accumulate (no
short-circuit), each match applies the rule's actions immediately, and any
match forces `risk_level = Critical` with `ml_risk_score` raised to at least
0.9 (unless the level is already `Critical`). -/

def selectSecurityRules (rules : List Rule) : List Rule :=
  sortByPriorityDesc (rules.filter (fun ru =>
    ru.isActive && (ru.ruleType == some "security" || ru.ruleType == none)))

def securityEligible (r : Record) : Bool :=
  r.excludedByRule == none && (r.whitelisted == none || r.whitelisted == some false)

def matchEntryOf (rule : Rule) : MatchEntry :=
  ⟨rule.id, rule.name, rule.description, rule.priority, rule.actions⟩

def securityStep (rx : RegexSearch) (acc : Record × List MatchEntry) (rule : Rule) :
    Record × List MatchEntry :=
  if evalRule rx acc.1 rule then
    (applyRuleActions acc.1 rule, acc.2 ++ [matchEntryOf rule])
  else acc

def processSecurityRecord (rx : RegexSearch) (rules : List Rule) (r : Record) : Record :=
  let res := rules.foldl (securityStep rx) (r, [])
  if res.2.isEmpty then res.1
  else
    let r2 := { res.1 with ruleMatches := some res.2 }
    if r2.riskLevel == some "Critical" then r2
    else { r2 with riskLevel := some "Critical",
                   mlRiskScore := some (max (r2.mlRiskScore.getD 0) 0.9) }

def applySecurityRules (rx : RegexSearch) (rules : List Rule) (records : List Record) :
    List Record :=
  let sel := selectSecurityRules rules
  if sel.isEmpty then records
  else records.map (fun r => if securityEligible r then processSecurityRecord rx sel r else r)

/-! ## Whitelist pass (`DomainManager.apply_whitelist_filtering`)

Active whitelist domains, lowercased and stripped; non-excluded records with
a truthy recipient domain are matched first exactly, then loosely (dot-suffix
in either direction or substring containment in either direction). -/

def looseDomainMatch (w domain : String) : Bool :=
  strEqB domain w || endsWithS domain ("." ++ w) || endsWithS w ("." ++ domain) ||
  containsS w domain || containsS domain w

def whitelistMatches (wset : List String) (domain : String) : Bool :=
  if wset.any (fun w => strEqB w domain) then true
  else wset.any (fun w => looseDomainMatch w domain)

def whitelistRecord (wset : List String) (r : Record) : Record :=
  if r.excludedByRule == none then
    if !(strEqB r.csv.recipientsEmailDomain "") then
      if whitelistMatches wset (trimS (lowerS r.csv.recipientsEmailDomain)) then
        { r with whitelisted := some true }
      else r
    else r
  else r

def applyWhitelistFiltering (domains : List WhitelistEntry) (records : List Record) :
    List Record :=
  let wset := (domains.filter (fun d => d.isActive)).map (fun d => trimS (lowerS d.domain))
  if wset.isEmpty then records
  else records.map (whitelistRecord wset)

/-! ## ML engine (`ml_engine.py`)

Feature extraction, attachment risk, the anomaly-scorer small-sample branch,
hybrid risk fusion, thresholded level assignment and explanation text.  The
fitted sklearn path (StandardScaler + IsolationForest, reached only for ten
or more rows) is external library code and is abstracted as an `AnomalyFit`
parameter. -/

def publicDomains4 : List String := ["gmail.com", "yahoo.com", "hotmail.com", "outlook.com"]

def publicDomains3 : List String := ["gmail.com", "yahoo.com", "hotmail.com"]

def corpDomains : List String := ["company.com", "corp.com"]

def highRiskExts : List String := [".exe", ".scr", ".bat", ".cmd", ".com", ".pif", ".vbs", ".js"]

def mediumRiskExts : List String :=
  [".zip", ".rar", ".7z", ".doc", ".docx", ".xls", ".xlsx", ".pdf"]

def suspiciousTokens : List String :=
  ["double extension", "hidden", "confidential", "urgent", "invoice"]

def suspiciousJustTerms : List String :=
  ["urgent", "confidential", "personal", "mistake", "wrong"]

def afterHoursTokens : List String := ["22:", "23:", "00:", "01:", "02:", "03:", "04:", "05:"]

/-- `MLEngine._calculate_attachment_risk`: additive per present extension or
token, augmented by active keyword-store entries, capped at 1.0; empty
attachment text short-circuits to 0. -/
def attachmentRisk (keywords : List Keyword) (attachments : String) : ℚ :=
  if strEqB attachments "" then 0
  else
    let low := lowerS attachments
    let s1 := (highRiskExts.map (fun e => if containsS low e then (0.8 : ℚ) else 0)).sum
    let s2 := (mediumRiskExts.map (fun e => if containsS low e then (0.3 : ℚ) else 0)).sum
    let s3 := (suspiciousTokens.map (fun t => if containsS low t then (0.2 : ℚ) else 0)).sum
    let s4 := ((keywords.filter (fun k => k.isActive)).map (fun k =>
      if containsS low (lowerS k.keyword) then
        if strEqB k.category "Suspicious" then (k.riskScore : ℚ) * 0.1
        else if strEqB k.category "Personal" then (k.riskScore : ℚ) * 0.05
        else 0
      else 0)).sum
    min (s1 + s2 + s3 + s4) 1

def isLeaverB (leaver : String) : Bool :=
  ["yes", "true", "1"].any (fun t => strEqB (lowerS leaver) t)

def hasWordlistB (c : CsvFields) : Bool :=
  !(strEqB c.wordlistAttachment "") || !(strEqB c.wordlistSubject "")

/-- `MLEngine._engineer_features`: the fixed 11-dimensional vector. -/
def featureVector (keywords : List Keyword) (c : CsvFields) : List ℚ :=
  let domain := lowerS c.recipientsEmailDomain
  let subjectLen : ℚ := c.subject.data.length
  let hasAttachments : ℚ := if strEqB c.attachments "" then 0 else 1
  let hasWordlist : ℚ := if hasWordlistB c then 1 else 0
  let isExternal : ℚ :=
    if !(strEqB domain "") && !(corpDomains.any (fun d => containsS domain d)) then 1 else 0
  let isPublic : ℚ := if publicDomains4.any (fun d => containsS domain d) then 1 else 0
  let isWeekend : ℚ := if containsS (lowerS c.time) "weekend" then 1 else 0
  let isAfterHours : ℚ := if afterHoursTokens.any (fun t => containsS c.time t) then 1 else 0
  let isLeaver : ℚ := if isLeaverB c.leaver then 1 else 0
  let attRisk := attachmentRisk keywords c.attachments
  let justLen : ℚ := c.justification.data.length
  let hasJust : ℚ := if 0 < c.justification.data.length then 1 else 0
  [subjectLen, hasAttachments, hasWordlist, isExternal, isPublic, isWeekend, isAfterHours,
   isLeaver, attRisk, justLen, hasJust]

/-- The fitted-detector scoring path abstracted (sklearn, not repository
code): given the feature matrix it returns the normalized, inverted per-row
anomaly scores. -/
def AnomalyFit := List (List ℚ) → List ℚ

/-- `MLEngine._detect_anomalies`: fewer than 10 rows short-circuits to an
all-zero vector without touching the detector. -/
def detectAnomalies (fit : AnomalyFit) (features : List (List ℚ)) : List ℚ :=
  if features.length < 10 then List.replicate features.length 0
  else fit features

/-- Rule-based risk factors of `MLEngine._calculate_risk_scores` (the 60%
component): leaver 0.3, public-domain recipient 0.2, attachment risk × 0.3,
wordlist match 0.2, weekend 0.1, suspicious justification term 0.1. -/
def ruleRisk (keywords : List Keyword) (c : CsvFields) : ℚ :=
  let leaverRisk : ℚ := if isLeaverB c.leaver then 0.3 else 0
  let domain := lowerS c.recipientsEmailDomain
  let domainRisk : ℚ := if publicDomains3.any (fun d => containsS domain d) then 0.2 else 0
  let attRisk := attachmentRisk keywords c.attachments * 0.3
  let wordlistRisk : ℚ := if hasWordlistB c then 0.2 else 0
  let timeRisk : ℚ := if containsS (lowerS c.time) "weekend" then 0.1 else 0
  let justRisk : ℚ :=
    if suspiciousJustTerms.any (fun t => containsS (lowerS c.justification) t) then 0.1 else 0
  leaverRisk + domainRisk + attRisk + wordlistRisk + timeRisk + justRisk

/-- Fused score of `MLEngine._calculate_risk_scores`:
`min(anomaly*0.4 + rule_risk*0.6, 1.0)`. -/
def riskScore (keywords : List Keyword) (c : CsvFields) (anomaly : ℚ) : ℚ :=
  min (anomaly * 0.4 + ruleRisk keywords c * 0.6) 1

/-- Threshold ladder of `MLEngine._update_records_with_ml_results`. -/
def riskLevelOf (risk : ℚ) : String :=
  if 0.8 ≤ risk then "Critical"
  else if 0.6 ≤ risk then "High"
  else if 0.4 ≤ risk then "Medium"
  else "Low"

def joinSemicolon : List String → String
  | [] => ""
  | [s] => s
  | s :: rest => s ++ "; " ++ joinSemicolon rest

/-- `MLEngine._generate_explanation` (its `risk_score` argument is unused by
the source body and therefore omitted here). -/
def generateExplanation (keywords : List Keyword) (c : CsvFields) (anomaly : ℚ) : String :=
  let e1 := if 0.7 < anomaly then ["Unusual communication pattern detected"] else []
  let e2 :=
    if !(strEqB c.leaver "") && isLeaverB c.leaver then
      ["Sender is a leaver - high risk for data exfiltration"]
    else []
  let domain := lowerS c.recipientsEmailDomain
  let e3 :=
    if publicDomains3.any (fun d => containsS domain d) then ["Email sent to public domain"]
    else []
  let e4 :=
    if !(strEqB c.attachments "") && 0.5 < attachmentRisk keywords c.attachments then
      ["High-risk attachments detected"]
    else []
  let e5 := if hasWordlistB c then ["Sensitive keywords detected"] else []
  let all := e1 ++ e2 ++ e3 ++ e4 ++ e5
  joinSemicolon (if all.isEmpty then ["Low risk communication"] else all)

def updateOne (keywords : List Keyword) (r : Record) (anom risk : ℚ) : Record :=
  { r with mlAnomalyScore := some anom,
           mlRiskScore := some risk,
           riskLevel := some (riskLevelOf risk),
           mlExplanation := some (generateExplanation keywords r.csv anom) }

/-- Records eligible for ML analysis (`MLEngine.analyze_session` query):
`excluded_by_rule IS NULL AND whitelisted == False` — note that, unlike the
security pass, a NULL `whitelisted` is **not** analyzed. -/
def mlEligible (r : Record) : Bool :=
  r.excludedByRule == none && r.whitelisted == some false

structure MlConfig where
  fastMode : Bool
  maxMlRecords : ℕ

def lookupByIdS : List (String × Record) → String → Option Record
  | [], _ => none
  | p :: ps, k => if strEqB p.1 k then some p.2 else lookupByIdS ps k

/-- The sample actually analyzed by `MLEngine.analyze_session`: the eligible
records, truncated in fast mode. -/
def mlAnalyzed (cfg : MlConfig) (records : List Record) : List Record :=
  let elig := records.filter mlEligible
  if cfg.fastMode && decide (cfg.maxMlRecords < elig.length) then elig.take cfg.maxMlRecords
  else elig

/-- The analyzed records with their ML results written on
(`_update_records_with_ml_results`): anomaly score, fused risk score,
thresholded level and explanation, positionally zipped.  The `zip`s assume
the abstract `fit` is length-preserving, which the sklearn pipeline is. -/
def mlUpdatedRecords (cfg : MlConfig) (fit : AnomalyFit) (keywords : List Keyword)
    (records : List Record) : List Record :=
  let analyzed := mlAnalyzed cfg records
  let anoms := detectAnomalies fit (analyzed.map (fun r => featureVector keywords r.csv))
  let risks := (analyzed.zip anoms).map (fun p => riskScore keywords p.1.csv p.2)
  (analyzed.zip (anoms.zip risks)).map (fun p => updateOne keywords p.1 p.2.1 p.2.2)

/-- `MLEngine.analyze_session`: fewer than three eligible records aborts
without updates; otherwise every analyzed record is replaced by its updated
version, matched back by its session-unique `record_id`. -/
def mlAnalyze (cfg : MlConfig) (fit : AnomalyFit) (keywords : List Keyword)
    (records : List Record) : List Record :=
  if (records.filter mlEligible).length < 3 then records
  else
    let assoc := (mlUpdatedRecords cfg fit keywords records).map (fun u => (u.recordId, u))
    records.map (fun r => (lookupByIdS assoc r.recordId).getD r)

/-! ## Workflow orchestrator (`data_processor.py`)

`_apply_workflow` runs Exclusion → Whitelist → Security → ML over one
session's records; `reprocess_session` first clears the output fields owned
by the *non-skipped* stages and then re-runs the full workflow. -/

structure PipelineEnv where
  rules : List Rule
  whitelist : List WhitelistEntry
  keywords : List Keyword
  mlConfig : MlConfig

def applyWorkflowRecords (rx : RegexSearch) (fit : AnomalyFit) (env : PipelineEnv)
    (records : List Record) : List Record :=
  mlAnalyze env.mlConfig fit env.keywords
    (applySecurityRules rx env.rules
      (applyWhitelistFiltering env.whitelist
        (applyExclusionRules rx env.rules records)))

/-- The clearing phase of `reprocess_session`: each stage not listed in
`skip_stages` has its output fields reset (`excluded_by_rule → NULL`,
`whitelisted → False`, `rule_matches → NULL`, ML fields → NULL). -/
def clearStages (skip : List String) (records : List Record) : List Record :=
  records.map (fun r =>
    let r1 := if skip.any (fun s => strEqB s "exclusion") then r
              else { r with excludedByRule := none }
    let r2 := if skip.any (fun s => strEqB s "whitelist") then r1
              else { r1 with whitelisted := some false }
    let r3 := if skip.any (fun s => strEqB s "rules") then r2
              else { r2 with ruleMatches := none }
    if skip.any (fun s => strEqB s "ml") then r3
    else { r3 with mlRiskScore := none, mlAnomalyScore := none, riskLevel := none,
                   mlExplanation := none })

/-- `reprocess_session`: clear the non-skipped stage outputs, then call
`_apply_workflow`, which re-executes **all four** stages. -/
def reprocessSession (rx : RegexSearch) (fit : AnomalyFit) (env : PipelineEnv)
    (skip : List String) (records : List Record) : List Record :=
  applyWorkflowRecords rx fit env (clearStages skip records)

/-! ## Stage-level exception handling (`_apply_workflow` / `process_csv`)

Each sub-stage runs inside its own `try`/`except` that logs and moves on;
an abstract stage is a function that either returns the new session state or
raises.  `process_csv` marks the session `completed` after the workflow
(whose own failure is also caught) and reserves the `error` status for
ingestion-phase exceptions. -/

def runStage {σ : Type} (f : σ → Except String σ) (p : σ × List String) : σ × List String :=
  match f p.1 with
  | .ok s => (s, p.2)
  | .error e => (p.1, p.2 ++ [e])

def applyWorkflowE {σ : Type} (f1 f2 f3 f4 : σ → Except String σ) (s : σ) : σ × List String :=
  runStage f4 (runStage f3 (runStage f2 (runStage f1 (s, []))))

/-- `process_csv` after ingestion: status `completed` whatever the stages
did; an ingestion exception leaves the records untouched and the session in
status `error`. -/
def processCsvModel {σ : Type} (ingest : σ → Except String σ)
    (f1 f2 f3 f4 : σ → Except String σ) (s : σ) : σ × String :=
  match ingest s with
  | .error _ => (s, "error")
  | .ok s1 => ((applyWorkflowE f1 f2 f3 f4 s1).1, "completed")

/-- A stage that raises, as a value: used to state partial-failure claims. -/
def failStage {σ : Type} (e : String) : σ → Except String σ := fun _ => .error e

/-- A stage that does nothing (the observable effect of a caught failure). -/
def skipStage {σ : Type} : σ → Except String σ := fun s => .ok s

/-- The state a failing stage leaves behind (its `try` swallows the raise). -/
def stepSt {σ : Type} (f : σ → Except String σ) (s : σ) : σ :=
  match f s with
  | .ok t => t
  | .error _ => s

/-! ## Concrete fixtures

Concrete sessions used by counterexamples and witnesses.  `rxNone` is a
regex-search instance (no concrete rule below uses the `regex` operator);
`fitNone` an anomaly-fit instance (never reached: every concrete session
has fewer than ten eligible records). -/

def rxNone : RegexSearch := fun _ _ => false

def fitNone : AnomalyFit := fun _ => []

def defaultCfg : MlConfig := ⟨false, 1000⟩

def blankCsv : CsvFields := ⟨"", "", "", "", "", "", "", "", "", "", "", "", "", "", "", "", ""⟩

/-- A record as ingestion creates it: classification outputs unset,
`whitelisted` at its column default `False`, `case_status` at `Active`. -/
def baseRecord (id : String) (c : CsvFields) : Record :=
  ⟨id, c, none, some false, none, none, none, none, none, "Active", none, none, false⟩

def senderEqCond (name : String) : JVal :=
  .jobj (jfields [("field", .jstr "sender"), ("operator", .jstr "equals"),
                  ("value", .jstr name)])

def c1SecurityRule : Rule :=
  ⟨1, "Alice rule", none, some "security", senderEqCond "alice", .jobj .nil, 1, true⟩

def c1Env : PipelineEnv := ⟨[c1SecurityRule], [], [], defaultCfg⟩

def c1Records : List Record :=
  [baseRecord "r1" { blankCsv with sender := "alice" },
   baseRecord "r2" { blankCsv with sender := "bob" },
   baseRecord "r3" { blankCsv with sender := "carol" }]

def c2Csv : CsvFields :=
  { blankCsv with leaver := "yes", recipientsEmailDomain := "gmail.com",
                  attachments := "file.exe" }

def c3Env : PipelineEnv := ⟨[], [⟨"gmail.com", true⟩], [], defaultCfg⟩

def c3Rec : Record := baseRecord "r1" { blankCsv with recipientsEmailDomain := "gmail.com" }

def c5ScoreRule (m : ℚ) : Rule :=
  ⟨5, "Score rule", none, some "security", .jnull,
   .jobj (jfields [("score_modifier", .jnum m)]), 1, true⟩

def c5Rec : Record := baseRecord "r1" blankCsv

def c6ExclRule : Rule :=
  ⟨6, "Alice exclusion", none, some "exclusion", senderEqCond "alice", .jobj .nil, 1, true⟩

/-- Regex-search instance for the C6 counterexample, modelling
`re.compile(pattern, IGNORECASE | MULTILINE).search(text)` on exactly the
patterns and texts that concrete session produces: the anchored pattern
`^$` matches the newline-free text iff it is empty, and a literal pattern
matches iff it is a case-insensitive substring of the text. -/
def rxCex : RegexSearch := fun pat text =>
  if strEqB pat "^$" then strEqB text ""
  else containsS (lowerS text) (lowerS pat)

/-- An exclusion rule conditioned on the mutable `excluded_by_rule`
attribute (storable: the exclusion-rule routes do not call
`validate_rule_conditions`): its regex `^$` matches a record whose raw
`str(excluded_by_rule)` is the empty string — true for an empty tag, false
for the `"None"` rendering of NULL. -/
def c6RegexRule : Rule :=
  ⟨61, "ReTag", none, some "exclusion",
   .jobj (jfields [("field", .jstr "excluded_by_rule"), ("operator", .jstr "regex"),
                   ("value", .jstr "^$")]),
   .jobj .nil, 2, true⟩

/-- An exclusion rule with an empty name (the routes do not reject it):
its match leaves a falsy `excluded_by_rule` tag behind. -/
def c6EmptyNameRule : Rule :=
  ⟨62, "", none, some "exclusion", senderEqCond "alice", .jobj .nil, 1, true⟩

def c6Records : List Record := [baseRecord "r1" { blankCsv with sender := "alice" }]

def c10NullRule : Rule :=
  ⟨10, "Untyped rule", none, none, senderEqCond "alice", .jobj .nil, 1, true⟩

/-- Whitelist-flag monotonicity between a record and its successor through a
pipeline step: a set flag is never cleared. -/
def WlMono (a b : Record) : Prop :=
  a.whitelisted = some true → b.whitelisted = some true

/-! # Theorems -/

/-! ## Bounds on the risk factors -/

theorem ite_zero_nonneg (b : Bool) (q : ℚ) (hq : 0 ≤ q) :
    0 ≤ if b = true then q else 0 := by
  split <;> simp [hq]

theorem sum_map_ite_nonneg (l : List String) (f : String → Bool) (q : ℚ) (hq : 0 ≤ q) :
    0 ≤ (l.map (fun e => if f e then q else 0)).sum := by
  apply List.sum_nonneg
  intro x hx
  obtain ⟨e, _, rfl⟩ := List.mem_map.mp hx
  exact ite_zero_nonneg _ _ hq

theorem keywordSum_nonneg (kw : List Keyword) (low : String) :
    0 ≤ ((kw.filter (fun k => k.isActive)).map (fun k =>
      if containsS low (lowerS k.keyword) then
        if strEqB k.category "Suspicious" then (k.riskScore : ℚ) * 0.1
        else if strEqB k.category "Personal" then (k.riskScore : ℚ) * 0.05
        else 0
      else 0)).sum := by
  apply List.sum_nonneg
  intro x hx
  obtain ⟨k, _, rfl⟩ := List.mem_map.mp hx
  split_ifs <;> positivity

theorem attachmentRisk_nonneg (kw : List Keyword) (s : String) :
    0 ≤ attachmentRisk kw s := by
  simp only [attachmentRisk]
  split
  · exact le_refl 0
  · refine le_min ?_ (by norm_num)
    have h1 := sum_map_ite_nonneg highRiskExts (fun e => containsS (lowerS s) e) 0.8 (by norm_num)
    have h2 := sum_map_ite_nonneg mediumRiskExts (fun e => containsS (lowerS s) e) 0.3 (by norm_num)
    have h3 := sum_map_ite_nonneg suspiciousTokens (fun t => containsS (lowerS s) t) 0.2 (by norm_num)
    have h4 := keywordSum_nonneg kw (lowerS s)
    linarith

theorem attachmentRisk_le_one (kw : List Keyword) (s : String) :
    attachmentRisk kw s ≤ 1 := by
  simp only [attachmentRisk]
  split
  · norm_num
  · exact min_le_right _ _

theorem ruleRisk_nonneg (keywords : List Keyword) (c : CsvFields) :
    0 ≤ ruleRisk keywords c := by
  have ha := attachmentRisk_nonneg keywords c.attachments
  simp only [ruleRisk]
  split_ifs <;> linarith

/-- C9: the fused risk score `min(anomaly*0.4 + rule_risk*0.6, 1.0)` lies in
[0, 1] for every record (hence every combination of the non-negative factor
contributions) and every anomaly score in [0, 1]. -/
theorem c9_fused_score_bounded (keywords : List Keyword) (c : CsvFields) (anomaly : ℚ)
    (h0 : 0 ≤ anomaly) (_h1 : anomaly ≤ 1) :
    0 ≤ riskScore keywords c anomaly ∧ riskScore keywords c anomaly ≤ 1 := by
  have hr := ruleRisk_nonneg keywords c
  constructor
  · exact le_min (by nlinarith) (by norm_num)
  · exact min_le_right _ _

/-- C9 witness: the bound evaluated at a concrete record and anomaly 1/2. -/
theorem c9_fused_score_bounded_witness :
    0 ≤ riskScore [] c2Csv 0.5 ∧ riskScore [] c2Csv 0.5 ≤ 1 :=
  c9_fused_score_bounded [] c2Csv 0.5 (by norm_num) (by norm_num)

/-- C8: on a feature matrix with fewer than ten rows the anomaly scorer
returns the all-zero vector of matching length, independently of the fitted
detector (the `fit` parameter is never consulted). -/
theorem c8_small_sample_zero_vector (fit : AnomalyFit) (features : List (List ℚ))
    (h : features.length < 10) :
    detectAnomalies fit features = List.replicate features.length 0 ∧
    (detectAnomalies fit features).length = features.length ∧
    (∀ g : AnomalyFit, detectAnomalies g features = detectAnomalies fit features) := by
  refine ⟨?_, ?_, fun g => ?_⟩ <;> simp [detectAnomalies, h]

/-- C8 witness: three rows yield three zeros. -/
theorem c8_small_sample_zero_vector_witness :
    detectAnomalies fitNone [[1], [2], [3]] = [0, 0, 0] := by
  have := (c8_small_sample_zero_vector fitNone [[1], [2], [3]] (by norm_num)).1
  simpa using this

/-! ## Attachment-risk lower bound (for C2) -/

theorem strEqB_empty_false_of_contains {s t : String} (ht : t.data ≠ [])
    (h : containsS (lowerS s) t = true) : strEqB s "" = false := by
  obtain ⟨data⟩ := s
  cases data with
  | nil =>
    exfalso
    have hfalse : containsS (lowerS ⟨[]⟩) t = false := by
      cases hd : t.data with
      | nil => exact absurd hd ht
      | cons a as => simp [containsS, lowerS, isInfixOfB, hd, List.isEmpty]
    rw [h] at hfalse
    exact Bool.true_eq_false.mp hfalse
  | cons c cs => simp [strEqB, show ("" : String).data = [] from rfl]

theorem attachmentRisk_ge_exe (kw : List Keyword) (s : String)
    (h : containsS (lowerS s) ".exe" = true) : 0.8 ≤ attachmentRisk kw s := by
  have hne : strEqB s "" = false := strEqB_empty_false_of_contains (by decide) h
  simp only [attachmentRisk, hne, Bool.false_eq_true, if_false]
  refine le_min ?_ (by norm_num)
  have h2 := sum_map_ite_nonneg mediumRiskExts (fun e => containsS (lowerS s) e) 0.3 (by norm_num)
  have h3 := sum_map_ite_nonneg suspiciousTokens (fun t => containsS (lowerS s) t) 0.2 (by norm_num)
  have h4 := keywordSum_nonneg kw (lowerS s)
  have h1 : (0.8 : ℚ) ≤
      (highRiskExts.map (fun e => if containsS (lowerS s) e then (0.8 : ℚ) else 0)).sum := by
    have hmem : (if containsS (lowerS s) ".exe" then (0.8 : ℚ) else 0) ∈
        highRiskExts.map (fun e => if containsS (lowerS s) e then (0.8 : ℚ) else 0) :=
      List.mem_map_of_mem _ (by decide)
    have hval : (if containsS (lowerS s) ".exe" then (0.8 : ℚ) else 0) = 0.8 := by simp [h]
    have hle := List.single_le_sum
      (fun x hx => by
        obtain ⟨e, _, rfl⟩ := List.mem_map.mp hx
        exact ite_zero_nonneg _ _ (by norm_num)) _ hmem
    rw [hval] at hle
    exact hle
  linarith

/-- C2 counterexample: a record with `leaver=yes`, recipient domain
`gmail.com` and a `.exe` attachment has rule-based contribution exactly
0.74, but the fused score at anomaly 0 is 0.444 and the assigned level is
Medium — not High as the claim states. -/
theorem c2_counterexample_not_high :
    ruleRisk [] c2Csv = 0.74 ∧
    riskScore [] c2Csv 0 = 0.444 ∧
    riskLevelOf (riskScore [] c2Csv 0) = "Medium" := by
  refine ⟨?_, ?_, ?_⟩ <;> with_unfolding_all rfl

/-- C2 amended: with `leaver=yes`, a `gmail.com` recipient domain and a
`.exe` attachment, the rule-based contribution is at least 0.74 and the
fused classification assigns a risk level of at least Medium (the score
clears the 0.4 threshold, so the level is never Low) for every non-negative
anomaly score. -/
theorem c2_amended_at_least_medium (keywords : List Keyword) (c : CsvFields) (anomaly : ℚ)
    (hl : isLeaverB c.leaver = true)
    (hd : containsS (lowerS c.recipientsEmailDomain) "gmail.com" = true)
    (ha : containsS (lowerS c.attachments) ".exe" = true)
    (h0 : 0 ≤ anomaly) :
    0.74 ≤ ruleRisk keywords c ∧
    0.4 ≤ riskScore keywords c anomaly ∧
    riskLevelOf (riskScore keywords c anomaly) ≠ "Low" := by
  have hatt := attachmentRisk_ge_exe keywords c.attachments ha
  have hany : publicDomains3.any (fun d => containsS (lowerS c.recipientsEmailDomain) d) = true := by
    simp [publicDomains3, hd]
  have hw := ite_zero_nonneg (hasWordlistB c) 0.2 (by norm_num)
  have htm := ite_zero_nonneg (containsS (lowerS c.time) "weekend") 0.1 (by norm_num)
  have hj := ite_zero_nonneg
    (suspiciousJustTerms.any (fun t => containsS (lowerS c.justification) t)) 0.1 (by norm_num)
  have hrr : (0.74 : ℚ) ≤ ruleRisk keywords c := by
    simp only [ruleRisk, hl, hany, if_true]
    linarith
  have hscore : (0.4 : ℚ) ≤ riskScore keywords c anomaly := by
    simp only [riskScore]
    refine le_min ?_ (by norm_num)
    nlinarith
  refine ⟨hrr, hscore, ?_⟩
  simp only [riskLevelOf]
  split_ifs <;> simp_all

/-- C2 amended witness: the bound applied to the concrete Scenario-A record
at anomaly 0. -/
theorem c2_amended_at_least_medium_witness :
    0.74 ≤ ruleRisk [] c2Csv ∧ 0.4 ≤ riskScore [] c2Csv 0 ∧
    riskLevelOf (riskScore [] c2Csv 0) ≠ "Low" :=
  c2_amended_at_least_medium [] c2Csv 0 (by with_unfolding_all rfl)
    (by with_unfolding_all rfl) (by with_unfolding_all rfl) (by norm_num)

/-- C4: an empty child list evaluates to `False` in the plain-list form, in
the dict form under both AND and OR, and in the JSON-string dict form — but
the JSON-string form of the empty list (`"[]"`, an AND group with zero
children after parsing) evaluates to `True` for every record, via the
vacuous `all()` in `_evaluate_rule_conditions_with_parsed`. -/
theorem c4_empty_group_representations :
    ∀ (rx : RegexSearch) (r : Record),
      evalRuleConditions rx r (.jstr "[]") = true ∧
      evalRuleConditions rx r (.jarr .nil) = false ∧
      evalRuleConditions rx r
        (.jobj (jfields [("logic", .jstr "AND"), ("conditions", .jarr .nil)])) = false ∧
      evalRuleConditions rx r
        (.jobj (jfields [("logic", .jstr "OR"), ("conditions", .jarr .nil)])) = false ∧
      evalRuleConditions rx r (.jstr "\x7b\"logic\": \"AND\", \"conditions\": []\x7d") = false ∧
      evalRuleConditions rx r (.jstr "\x7b\"logic\": \"OR\", \"conditions\": []\x7d") = false := by
  intro rx r
  refine ⟨?_, ?_, ?_, ?_, ?_, ?_⟩ <;> with_unfolding_all rfl

/-- C4 witness: the divergence pinned at a concrete record. -/
theorem c4_empty_group_representations_witness :
    evalRuleConditions rxNone (baseRecord "r0" blankCsv) (.jstr "[]") = true ∧
    evalRuleConditions rxNone (baseRecord "r0" blankCsv) (.jarr .nil) = false :=
  ⟨(c4_empty_group_representations rxNone (baseRecord "r0" blankCsv)).1,
   (c4_empty_group_representations rxNone (baseRecord "r0" blankCsv)).2.1⟩

/-- C5 counterexample: applying a `score_modifier` of 1.5 to a record whose
risk score is unset yields risk score 1.5, above the claimed [0,1] clamp. -/
theorem c5_counterexample_unclamped :
    c5Rec.mlRiskScore = none ∧
    (applyRuleActions c5Rec (c5ScoreRule 1.5)).mlRiskScore = some 1.5 ∧
    ¬((1.5 : ℚ) ≤ 1) := by
  refine ⟨rfl, ?_, by norm_num⟩
  with_unfolding_all rfl

/-- C5 amended: a `score_modifier` action with a nonzero modifier adds the
delta and clamps to [0,1] when the prior risk score is set; with an unset
(None) prior it sets `max(modifier, 0)`, bounded below but not clamped
above. -/
theorem c5_amended_clamp (r : Record) (rule : Rule) (m : ℚ) (hm : m ≠ 0)
    (ha : rule.actions = .jobj (jfields [("score_modifier", .jnum m)])) :
    (∀ p, r.mlRiskScore = some p →
        (applyRuleActions r rule).mlRiskScore = some (min (max (p + m) 0) 1) ∧
        0 ≤ min (max (p + m) 0) 1 ∧ min (max (p + m) 0) 1 ≤ 1) ∧
    (r.mlRiskScore = none →
        (applyRuleActions r rule).mlRiskScore = some (max m 0) ∧ 0 ≤ max m 0) := by
  constructor
  · intro p hp
    refine ⟨?_, le_min (le_max_right _ _) (by norm_num), min_le_right _ _⟩
    simp [applyRuleActions, ha, jfields, pyTruthy, JFields.isNil, jget, jgetD, strEqB,
      isPrefixOfB, charEqB, pyTruthyO, hm, pyFloatJ, applyTagAssign, hp]
  · intro hp
    refine ⟨?_, le_max_right _ _⟩
    simp [applyRuleActions, ha, jfields, pyTruthy, JFields.isNil, jget, jgetD, strEqB,
      isPrefixOfB, charEqB, pyTruthyO, hm, pyFloatJ, applyTagAssign, hp]

/-- C5 amended witness: a modifier of 0.5 on an unset score yields 0.5. -/
theorem c5_amended_clamp_witness :
    (applyRuleActions c5Rec (c5ScoreRule 0.5)).mlRiskScore = some (max 0.5 0) ∧
    0 ≤ max (0.5 : ℚ) 0 :=
  (c5_amended_clamp c5Rec (c5ScoreRule 0.5) 0.5 (by norm_num) rfl).2 rfl

/-- C1 (code-bug exhibit): in a three-record session where one record
matches an active security rule and carries zero anomaly signal and zero
rule-based factors, the rules stage sets `risk_level=Critical` and
`ml_risk_score=0.9`, but the subsequent ML stage overwrites the final
classification to `risk_level=Low`, `ml_risk_score=0.0` (its `rule_matches`
still recorded) — the override does not survive the full pipeline. -/
theorem c1_ml_stage_overwrites_rule_override :
    (((applySecurityRules rxNone c1Env.rules
          (applyWhitelistFiltering c1Env.whitelist
            (applyExclusionRules rxNone c1Env.rules c1Records))).map
        (fun r => (r.riskLevel, r.mlRiskScore))).head? =
      some (some "Critical", some 0.9)) ∧
    (((applyWorkflowRecords rxNone fitNone c1Env c1Records).map
        (fun r => (r.riskLevel, r.mlRiskScore, r.ruleMatches.isSome))).head? =
      some (some "Low", some 0, true)) := by
  constructor <;> with_unfolding_all rfl

/-! ## Workflow partial-failure tolerance (for C7) -/

theorem runStage_fst {σ : Type} (f : σ → Except String σ) (p : σ × List String) :
    (runStage f p).1 = stepSt f p.1 := by
  unfold runStage stepSt
  cases f p.1 <;> rfl

theorem applyWorkflowE_fst {σ : Type} (f1 f2 f3 f4 : σ → Except String σ) (s : σ) :
    (applyWorkflowE f1 f2 f3 f4 s).1 =
      stepSt f4 (stepSt f3 (stepSt f2 (stepSt f1 s))) := by
  unfold applyWorkflowE
  rw [runStage_fst, runStage_fst, runStage_fst, runStage_fst]

/-- C7: a raising sub-stage has exactly the effect of a no-op stage — the
remaining sub-stages still execute on the same state (shown for each of the
four positions) — and the session completes whenever ingestion succeeded,
while the `error` status arises exactly from an ingestion failure. -/
theorem c7_stage_failure_tolerated {σ : Type} (f1 f2 f3 f4 : σ → Except String σ)
    (s : σ) (e : String) :
    ((applyWorkflowE (failStage e) f2 f3 f4 s).1 = (applyWorkflowE skipStage f2 f3 f4 s).1) ∧
    ((applyWorkflowE f1 (failStage e) f3 f4 s).1 = (applyWorkflowE f1 skipStage f3 f4 s).1) ∧
    ((applyWorkflowE f1 f2 (failStage e) f4 s).1 = (applyWorkflowE f1 f2 skipStage f4 s).1) ∧
    ((applyWorkflowE f1 f2 f3 (failStage e) s).1 = (applyWorkflowE f1 f2 f3 skipStage s).1) ∧
    (∀ ingest : σ → Except String σ, ∀ s1, ingest s = .ok s1 →
      processCsvModel ingest f1 f2 f3 f4 s = ((applyWorkflowE f1 f2 f3 f4 s1).1, "completed")) ∧
    (∀ ingest : σ → Except String σ, (∃ e2, ingest s = .error e2) →
      processCsvModel ingest f1 f2 f3 f4 s = (s, "error")) := by
  refine ⟨?_, ?_, ?_, ?_, ?_, ?_⟩
  · rw [applyWorkflowE_fst, applyWorkflowE_fst]; rfl
  · rw [applyWorkflowE_fst, applyWorkflowE_fst]; rfl
  · rw [applyWorkflowE_fst, applyWorkflowE_fst]; rfl
  · rw [applyWorkflowE_fst, applyWorkflowE_fst]; rfl
  · intro ingest s1 h
    unfold processCsvModel
    rw [h]
  · rintro ingest ⟨e2, h⟩
    unfold processCsvModel
    rw [h]

/-- C7 witness: a concrete session state where the first stage raises and
the run still completes. -/
theorem c7_stage_failure_tolerated_witness :
    processCsvModel (@skipStage ℕ) (failStage "boom") skipStage skipStage skipStage 0 =
      ((applyWorkflowE (failStage "boom") skipStage skipStage skipStage 0).1, "completed") :=
  (@c7_stage_failure_tolerated ℕ (failStage "boom") skipStage skipStage skipStage 0
    "boom").2.2.2.2.1 skipStage 0 rfl

/-! ## Exclusion idempotence (C6)

The pass is **not** idempotent in general: a record tagged by a rule whose
name is the empty string carries a falsy `excluded_by_rule` and is
re-evaluated on the next run, where a rule conditioned (via the raw regex
path) on `excluded_by_rule` itself can now match and re-tag it.  With every
active rule name non-empty — which is what every first-run tag then
guarantees — idempotence holds. -/

theorem pyTruthyStr_of_ne {s : String} (h : s ≠ "") : pyTruthyStr (some s) = true := by
  obtain ⟨d⟩ := s
  cases d with
  | nil => exact absurd rfl h
  | cons a l => rfl

theorem excludeRecord_idem_of_names (rx : RegexSearch) (rules : List Rule)
    (hname : ∀ ru ∈ rules, ru.name ≠ "") (r : Record) :
    excludeRecord rx rules (excludeRecord rx rules r) = excludeRecord rx rules r := by
  by_cases h : pyTruthyStr r.excludedByRule
  · have hid : excludeRecord rx rules r = r := by simp [excludeRecord, h]
    simp only [hid]
  · cases hf : rules.find? (fun rule => evalRule rx r rule) with
    | none =>
      have hid : excludeRecord rx rules r = r := by simp [excludeRecord, h, hf]
      simp only [hid]
    | some rule =>
      have hmem : rule ∈ rules := List.mem_of_find?_eq_some hf
      have hstep : excludeRecord rx rules r = { r with excludedByRule := some rule.name } := by
        simp [excludeRecord, h, hf]
      rw [hstep]
      have h2 : pyTruthyStr
          ({ r with excludedByRule := some rule.name } : Record).excludedByRule = true :=
        pyTruthyStr_of_ne (hname rule hmem)
      simp [excludeRecord, h2]

/-- C6 counterexample: with an empty-named exclusion rule and a
higher-priority rule whose regex condition reads `excluded_by_rule`
(distinguishing the raw `"None"` of NULL from the empty tag), the first run
tags the record with `""` and the second run re-tags it with `"ReTag"` — the
excluded sets of the two runs differ, so the pass as implemented is not
idempotent. -/
theorem c6_counterexample_not_idempotent :
    (applyExclusionRules rxCex [c6RegexRule, c6EmptyNameRule] c6Records).map
        Record.excludedByRule = [some ""] ∧
    (applyExclusionRules rxCex [c6RegexRule, c6EmptyNameRule]
        (applyExclusionRules rxCex [c6RegexRule, c6EmptyNameRule] c6Records)).map
        Record.excludedByRule = [some "ReTag"] ∧
    applyExclusionRules rxCex [c6RegexRule, c6EmptyNameRule]
        (applyExclusionRules rxCex [c6RegexRule, c6EmptyNameRule] c6Records) ≠
      applyExclusionRules rxCex [c6RegexRule, c6EmptyNameRule] c6Records := by
  refine ⟨?_, ?_, ?_⟩
  · with_unfolding_all rfl
  · with_unfolding_all rfl
  · intro heq
    have h1 : (applyExclusionRules rxCex [c6RegexRule, c6EmptyNameRule] c6Records).map
        Record.excludedByRule = [some ""] := by with_unfolding_all rfl
    have h2 : (applyExclusionRules rxCex [c6RegexRule, c6EmptyNameRule]
        (applyExclusionRules rxCex [c6RegexRule, c6EmptyNameRule] c6Records)).map
        Record.excludedByRule = [some "ReTag"] := by with_unfolding_all rfl
    rw [heq, h1] at h2
    exact absurd (List.cons.inj h2).1 (by decide)

/-- C6 amended: provided every active exclusion rule has a non-empty name —
so that every tag a run writes is truthy — the pass is idempotent: applying
it twice with unchanged rules equals applying it once; a record already
carrying a truthy (non-empty) `excluded_by_rule` is returned untouched; and
a not-yet-excluded record is tagged by the first matching rule of the
priority-sorted active list, or left alone when none matches. -/
theorem c6_amended_idempotent_nonempty_names (rx : RegexSearch) (rules : List Rule)
    (records : List Record)
    (hname : ∀ ru ∈ activeExclusionRules rules, ru.name ≠ "") :
    applyExclusionRules rx rules (applyExclusionRules rx rules records) =
      applyExclusionRules rx rules records ∧
    (∀ r : Record, pyTruthyStr r.excludedByRule = true →
      excludeRecord rx (activeExclusionRules rules) r = r) ∧
    (∀ r : Record, pyTruthyStr r.excludedByRule = false →
      (excludeRecord rx (activeExclusionRules rules) r).excludedByRule =
        match (activeExclusionRules rules).find? (fun rule => evalRule rx r rule) with
        | some rule => some rule.name
        | none => r.excludedByRule) := by
  refine ⟨?_, ?_, ?_⟩
  · by_cases he : (activeExclusionRules rules).isEmpty
    · simp [applyExclusionRules, he]
    · simp only [applyExclusionRules, he, Bool.false_eq_true, if_false]
      rw [List.map_map]
      apply List.map_congr_left
      intro a _
      exact excludeRecord_idem_of_names rx _ hname a
  · intro r h
    simp [excludeRecord, h]
  · intro r h
    simp only [excludeRecord, h, Bool.false_eq_true, if_false]
    cases hf : (activeExclusionRules rules).find? (fun rule => evalRule rx r rule) <;>
      simp [hf]

/-- C6 amended witness: idempotence on the concrete three-record session
(whose one active rule is non-trivially named) and the skip of an
already-excluded record. -/
theorem c6_amended_idempotent_nonempty_names_witness :
    applyExclusionRules rxNone [c6ExclRule]
        (applyExclusionRules rxNone [c6ExclRule] c1Records) =
      applyExclusionRules rxNone [c6ExclRule] c1Records ∧
    excludeRecord rxNone (activeExclusionRules [c6ExclRule])
        { baseRecord "r0" blankCsv with excludedByRule := some "Prior rule" } =
      { baseRecord "r0" blankCsv with excludedByRule := some "Prior rule" } := by
  have hname : ∀ ru ∈ activeExclusionRules [c6ExclRule], ru.name ≠ "" := by
    have hact : activeExclusionRules [c6ExclRule] = [c6ExclRule] := by
      with_unfolding_all rfl
    intro ru hru
    rw [hact] at hru
    rw [List.mem_singleton.mp hru]
    decide
  exact ⟨(c6_amended_idempotent_nonempty_names rxNone [c6ExclRule] c1Records hname).1,
    (c6_amended_idempotent_nonempty_names rxNone [c6ExclRule] c1Records hname).2.1
      { baseRecord "r0" blankCsv with excludedByRule := some "Prior rule" }
      (by with_unfolding_all rfl)⟩

/-! ## Field-preservation lemmas for the security pass (C10, C3) -/

theorem applyRuleActions_csv (r : Record) (rule : Rule) :
    (applyRuleActions r rule).csv = r.csv := by
  unfold applyRuleActions applyTagAssign addNote
  repeat' split
  all_goals rfl

theorem applyRuleActions_riskLevel (r : Record) (rule : Rule) :
    (applyRuleActions r rule).riskLevel = r.riskLevel := by
  unfold applyRuleActions applyTagAssign addNote
  repeat' split
  all_goals rfl

theorem applyRuleActions_whitelisted (r : Record) (rule : Rule) :
    (applyRuleActions r rule).whitelisted = r.whitelisted := by
  unfold applyRuleActions applyTagAssign addNote
  repeat' split
  all_goals rfl

theorem applyRuleActions_recordId (r : Record) (rule : Rule) :
    (applyRuleActions r rule).recordId = r.recordId := by
  unfold applyRuleActions applyTagAssign addNote
  repeat' split
  all_goals rfl

theorem securityStep_csv (rx : RegexSearch) (acc : Record × List MatchEntry) (rule : Rule) :
    ((securityStep rx acc rule).1).csv = acc.1.csv := by
  unfold securityStep
  split
  · exact applyRuleActions_csv acc.1 rule
  · rfl

theorem securityStep_riskLevel (rx : RegexSearch) (acc : Record × List MatchEntry)
    (rule : Rule) : ((securityStep rx acc rule).1).riskLevel = acc.1.riskLevel := by
  unfold securityStep
  split
  · exact applyRuleActions_riskLevel acc.1 rule
  · rfl

theorem securityStep_whitelisted (rx : RegexSearch) (acc : Record × List MatchEntry)
    (rule : Rule) : ((securityStep rx acc rule).1).whitelisted = acc.1.whitelisted := by
  unfold securityStep
  split
  · exact applyRuleActions_whitelisted acc.1 rule
  · rfl

theorem securityStep_recordId (rx : RegexSearch) (acc : Record × List MatchEntry)
    (rule : Rule) : ((securityStep rx acc rule).1).recordId = acc.1.recordId := by
  unfold securityStep
  split
  · exact applyRuleActions_recordId acc.1 rule
  · rfl

theorem securityFold_csv (rx : RegexSearch) (rules : List Rule)
    (acc : Record × List MatchEntry) :
    ((rules.foldl (securityStep rx) acc).1).csv = acc.1.csv := by
  induction rules generalizing acc with
  | nil => rfl
  | cons head tail ih =>
    rw [List.foldl_cons]
    exact (ih _).trans (securityStep_csv rx acc head)

theorem securityFold_riskLevel (rx : RegexSearch) (rules : List Rule)
    (acc : Record × List MatchEntry) :
    ((rules.foldl (securityStep rx) acc).1).riskLevel = acc.1.riskLevel := by
  induction rules generalizing acc with
  | nil => rfl
  | cons head tail ih =>
    rw [List.foldl_cons]
    exact (ih _).trans (securityStep_riskLevel rx acc head)

theorem securityFold_whitelisted (rx : RegexSearch) (rules : List Rule)
    (acc : Record × List MatchEntry) :
    ((rules.foldl (securityStep rx) acc).1).whitelisted = acc.1.whitelisted := by
  induction rules generalizing acc with
  | nil => rfl
  | cons head tail ih =>
    rw [List.foldl_cons]
    exact (ih _).trans (securityStep_whitelisted rx acc head)

theorem securityFold_recordId (rx : RegexSearch) (rules : List Rule)
    (acc : Record × List MatchEntry) :
    ((rules.foldl (securityStep rx) acc).1).recordId = acc.1.recordId := by
  induction rules generalizing acc with
  | nil => rfl
  | cons head tail ih =>
    rw [List.foldl_cons]
    exact (ih _).trans (securityStep_recordId rx acc head)

theorem securityFold_mono (rx : RegexSearch) (rules : List Rule)
    (acc : Record × List MatchEntry) (h : acc.2 ≠ []) :
    (rules.foldl (securityStep rx) acc).2 ≠ [] := by
  induction rules generalizing acc with
  | nil => exact h
  | cons head tail ih =>
    rw [List.foldl_cons]
    apply ih
    unfold securityStep
    split
    · simp
    · exact h

theorem securityFold_hit (rx : RegexSearch) {rules : List Rule} {rule : Rule}
    (acc : Record × List MatchEntry) (hmem : rule ∈ rules)
    (hmatch : evalRule rx acc.1 rule = true) :
    (rules.foldl (securityStep rx) acc).2 ≠ [] := by
  induction hmem generalizing acc with
  | head as =>
    rw [List.foldl_cons]
    apply securityFold_mono
    unfold securityStep
    simp [hmatch]
  | tail b hb ih =>
    rw [List.foldl_cons]
    by_cases hc : evalRule rx acc.1 b = true
    · apply securityFold_mono
      unfold securityStep
      simp [hc]
    · have hstep : securityStep rx acc b = acc := by
        unfold securityStep
        simp [hc]
      rw [hstep]
      exact ih acc hmatch

/-- C10: a rule whose `rule_type` is NULL behaves as a security rule — if it
is active and matches an eligible record, the security pass records the
match (`rule_matches` set) and triggers the Critical override, forcing
`risk_level=Critical` and `ml_risk_score` at least 0.9 (for a record not
already Critical). -/
theorem c10_null_typed_rule_is_security (rx : RegexSearch) (rules : List Rule)
    (r : Record) (rule : Rule) (hmem : rule ∈ rules) (hact : rule.isActive = true)
    (htype : rule.ruleType = none) (helig : securityEligible r = true)
    (hnc : r.riskLevel ≠ some "Critical") (hmatch : evalRule rx r rule = true) :
    ∃ r₂, applySecurityRules rx rules [r] = [r₂] ∧
      r₂.riskLevel = some "Critical" ∧ 0.9 ≤ r₂.mlRiskScore.getD 0 ∧
      r₂.ruleMatches ≠ none := by
  have hsel : rule ∈ selectSecurityRules rules := by
    unfold selectSecurityRules sortByPriorityDesc
    rw [(List.perm_insertionSort _ _).mem_iff]
    exact List.mem_filter.mpr ⟨hmem, by simp [hact, htype]⟩
  have hsne : (selectSecurityRules rules).isEmpty = false := by
    cases h : selectSecurityRules rules with
    | nil => rw [h] at hsel; cases hsel
    | cons a b => rfl
  have hfold : ((selectSecurityRules rules).foldl (securityStep rx) (r, [])).2 ≠ [] :=
    securityFold_hit rx (r, []) hsel hmatch
  have hie : ((selectSecurityRules rules).foldl (securityStep rx) (r, [])).2.isEmpty = false := by
    cases hx : ((selectSecurityRules rules).foldl (securityStep rx) (r, [])).2 with
    | nil => exact absurd hx hfold
    | cons a b => rfl
  have hrl : (((selectSecurityRules rules).foldl (securityStep rx) (r, [])).1).riskLevel =
      r.riskLevel := securityFold_riskLevel rx _ _
  have hb : ((({((selectSecurityRules rules).foldl (securityStep rx) (r, [])).1 with
      ruleMatches := some ((selectSecurityRules rules).foldl (securityStep rx) (r, [])).2} :
        Record).riskLevel) == some "Critical") = false := by
    have hproj : (({((selectSecurityRules rules).foldl (securityStep rx) (r, [])).1 with
        ruleMatches := some ((selectSecurityRules rules).foldl (securityStep rx) (r, [])).2} :
          Record).riskLevel) = r.riskLevel := hrl
    rw [hproj]
    exact beq_eq_false_iff_ne.mpr hnc
  refine ⟨processSecurityRecord rx (selectSecurityRules rules) r, ?_, ?_, ?_, ?_⟩
  · unfold applySecurityRules
    simp [hsne, helig]
  · unfold processSecurityRecord
    simp only [hie, Bool.false_eq_true, if_false]
    rw [hb]
    rfl
  · unfold processSecurityRecord
    simp only [hie, Bool.false_eq_true, if_false]
    rw [hb]
    simp only [Bool.false_eq_true, if_false]
    exact le_max_right _ _
  · unfold processSecurityRecord
    simp only [hie, Bool.false_eq_true, if_false]
    split <;> simp

/-- C10 witness: a concrete NULL-typed active rule matching a concrete
eligible record. -/
theorem c10_null_typed_rule_is_security_witness :
    ∃ r₂, applySecurityRules rxNone [c10NullRule]
        [baseRecord "r1" { blankCsv with sender := "alice" }] = [r₂] ∧
      r₂.riskLevel = some "Critical" ∧ 0.9 ≤ r₂.mlRiskScore.getD 0 ∧
      r₂.ruleMatches ≠ none :=
  c10_null_typed_rule_is_security rxNone [c10NullRule]
    (baseRecord "r1" { blankCsv with sender := "alice" }) c10NullRule
    (List.mem_singleton.mpr rfl) rfl rfl (by with_unfolding_all rfl)
    (by with_unfolding_all decide) (by with_unfolding_all rfl)

/-! ## Reprocessing and the whitelist flag (C3)

The re-executed whitelist stage only ever sets `whitelisted` to true, and no
other stage writes the flag, so through `reprocess(skip_stages=["whitelist"])`
the flag is monotone: set flags survive, unset flags may be newly set (the
counterexample shows one being set).  `Forall₂ WlMono` states the pointwise
monotonicity between the pre- and post-call record lists. -/

theorem charEqB_eq {a b : Char} (h : charEqB a b = true) : a = b := by
  unfold charEqB at h
  have hn : a.toNat = b.toNat := by simpa using h
  exact Char.eq_of_val_eq (UInt32.ext hn)

theorem isPrefixOfB_eq_of_length : ∀ {xs ys : List Char}, xs.length = ys.length →
    isPrefixOfB xs ys = true → xs = ys := by
  intro xs
  induction xs with
  | nil =>
    intro ys hl _
    cases ys with
    | nil => rfl
    | cons b bs => simp at hl
  | cons a as ih =>
    intro ys hl hp
    cases ys with
    | nil => simp at hl
    | cons b bs =>
      unfold isPrefixOfB at hp
      rw [Bool.and_eq_true] at hp
      rw [charEqB_eq hp.1, ih (by simpa using hl) hp.2]

theorem strEqB_eq {a b : String} (h : strEqB a b = true) : a = b := by
  obtain ⟨da⟩ := a
  obtain ⟨db⟩ := b
  unfold strEqB at h
  rw [Bool.and_eq_true] at h
  have hl : da.length = db.length := by
    have := h.1
    simpa using this
  exact congrArg String.mk (isPrefixOfB_eq_of_length hl h.2)

theorem lookupByIdS_mem : ∀ {l : List (String × Record)} {k : String} {u : Record},
    lookupByIdS l k = some u → ∃ p, p ∈ l ∧ strEqB p.1 k = true ∧ p.2 = u := by
  intro l
  induction l with
  | nil => intro k u h; cases h
  | cons p ps ih =>
    intro k u h
    unfold lookupByIdS at h
    by_cases hk : strEqB p.1 k = true
    · rw [if_pos hk] at h
      exact ⟨p, List.mem_cons_self p ps, hk, Option.some.inj h⟩
    · rw [if_neg hk] at h
      obtain ⟨q, hq, hk2, hu⟩ := ih h
      exact ⟨q, List.mem_cons_of_mem p hq, hk2, hu⟩

theorem forall2_map_self_mem {α : Type} (R : α → α → Prop) (f : α → α) :
    ∀ (l : List α), (∀ a ∈ l, R a (f a)) → List.Forall₂ R l (l.map f) := by
  intro l
  induction l with
  | nil => intro _; exact List.Forall₂.nil
  | cons a as ih =>
    intro h
    exact List.Forall₂.cons (h a (List.mem_cons_self a as))
      (ih (fun b hb => h b (List.mem_cons_of_mem a hb)))

theorem forall2_trans_of {α : Type} {R : α → α → Prop}
    (hR : ∀ a b c, R a b → R b c → R a c) :
    ∀ {l1 l2 l3 : List α}, List.Forall₂ R l1 l2 → List.Forall₂ R l2 l3 →
      List.Forall₂ R l1 l3 := by
  intro l1 l2 l3 h12
  induction h12 generalizing l3 with
  | nil => intro h23; cases h23; exact List.Forall₂.nil
  | cons hab h12' ih =>
    intro h23
    cases h23 with
    | cons hbc h23' => exact List.Forall₂.cons (hR _ _ _ hab hbc) (ih h23')

theorem wlMono_trans : ∀ a b c : Record, WlMono a b → WlMono b c → WlMono a c :=
  fun _ _ _ hab hbc h => hbc (hab h)

theorem mlAnalyzed_subset (cfg : MlConfig) (records : List Record) :
    ∀ a ∈ mlAnalyzed cfg records, a ∈ records ∧ mlEligible a = true := by
  intro a ha
  simp only [mlAnalyzed] at ha
  have hf : a ∈ records.filter mlEligible := by
    split at ha
    · exact List.take_subset _ _ ha
    · exact ha
  exact ⟨List.mem_of_mem_filter hf, List.of_mem_filter hf⟩

theorem mlUpdatedRecords_shape (cfg : MlConfig) (fit : AnomalyFit) (kw : List Keyword)
    (records : List Record) :
    ∀ u ∈ mlUpdatedRecords cfg fit kw records,
      ∃ a, a ∈ mlAnalyzed cfg records ∧ u.recordId = a.recordId ∧
        u.whitelisted = a.whitelisted := by
  intro u hu
  simp only [mlUpdatedRecords] at hu
  obtain ⟨trip, htrip, rfl⟩ := List.mem_map.mp hu
  exact ⟨trip.1, (List.of_mem_zip htrip).1, rfl, rfl⟩

theorem mlAnalyze_forall2 (cfg : MlConfig) (fit : AnomalyFit) (kw : List Keyword)
    (records : List Record) (hnd : (records.map Record.recordId).Nodup) :
    List.Forall₂ WlMono records (mlAnalyze cfg fit kw records) := by
  unfold mlAnalyze
  split
  · exact List.forall₂_same.mpr (fun a _ => fun h => h)
  · apply forall2_map_self_mem
    intro a ha hw
    cases hlk : lookupByIdS
        ((mlUpdatedRecords cfg fit kw records).map (fun u => (u.recordId, u))) a.recordId with
    | none => simpa [hlk] using hw
    | some u =>
      exfalso
      obtain ⟨p, hp, hkeq, hpu⟩ := lookupByIdS_mem hlk
      obtain ⟨u0, hu0, rfl⟩ := List.mem_map.mp hp
      obtain ⟨b, hb, hid, hwl⟩ := mlUpdatedRecords_shape cfg fit kw records u0 hu0
      obtain ⟨hbmem, helig⟩ := mlAnalyzed_subset cfg records b hb
      have hideq : b.recordId = a.recordId := by rw [← hid]; exact strEqB_eq hkeq
      have hba : b = a := List.inj_on_of_nodup_map hnd hbmem ha hideq
      have hbf : b.whitelisted = some false := by
        unfold mlEligible at helig
        rw [Bool.and_eq_true] at helig
        exact eq_of_beq helig.2
      rw [hba, hw] at hbf
      cases hbf

theorem excludeRecord_whitelisted (rx : RegexSearch) (rules : List Rule) (r : Record) :
    (excludeRecord rx rules r).whitelisted = r.whitelisted := by
  unfold excludeRecord
  repeat' split
  all_goals rfl

theorem excludeRecord_recordId (rx : RegexSearch) (rules : List Rule) (r : Record) :
    (excludeRecord rx rules r).recordId = r.recordId := by
  unfold excludeRecord
  repeat' split
  all_goals rfl

theorem applyExclusionRules_forall2 (rx : RegexSearch) (rules : List Rule)
    (records : List Record) :
    List.Forall₂ WlMono records (applyExclusionRules rx rules records) := by
  unfold applyExclusionRules
  dsimp only
  split
  · exact List.forall₂_same.mpr (fun a _ h => h)
  · exact forall2_map_self_mem _ _ _
      (fun a _ h => by rw [excludeRecord_whitelisted]; exact h)

theorem applyExclusionRules_ids (rx : RegexSearch) (rules : List Rule)
    (records : List Record) :
    (applyExclusionRules rx rules records).map Record.recordId =
      records.map Record.recordId := by
  unfold applyExclusionRules
  dsimp only
  split
  · rfl
  · rw [List.map_map]
    exact List.map_congr_left (fun a _ => excludeRecord_recordId rx _ a)

theorem whitelistRecord_recordId (wset : List String) (r : Record) :
    (whitelistRecord wset r).recordId = r.recordId := by
  unfold whitelistRecord
  repeat' split
  all_goals rfl

theorem applyWhitelistFiltering_forall2 (domains : List WhitelistEntry)
    (records : List Record) :
    List.Forall₂ WlMono records (applyWhitelistFiltering domains records) := by
  unfold applyWhitelistFiltering
  dsimp only
  split
  · exact List.forall₂_same.mpr (fun a _ h => h)
  · apply forall2_map_self_mem
    intro a _ h
    unfold whitelistRecord
    repeat' split
    all_goals (first | rfl | exact h)

theorem applyWhitelistFiltering_ids (domains : List WhitelistEntry)
    (records : List Record) :
    (applyWhitelistFiltering domains records).map Record.recordId =
      records.map Record.recordId := by
  unfold applyWhitelistFiltering
  dsimp only
  split
  · rfl
  · rw [List.map_map]
    exact List.map_congr_left (fun a _ => whitelistRecord_recordId _ a)

theorem processSecurityRecord_whitelisted (rx : RegexSearch) (rules : List Rule)
    (r : Record) : (processSecurityRecord rx rules r).whitelisted = r.whitelisted := by
  unfold processSecurityRecord
  dsimp only
  repeat' split
  all_goals exact securityFold_whitelisted rx rules (r, [])

theorem processSecurityRecord_recordId (rx : RegexSearch) (rules : List Rule)
    (r : Record) : (processSecurityRecord rx rules r).recordId = r.recordId := by
  unfold processSecurityRecord
  dsimp only
  repeat' split
  all_goals exact securityFold_recordId rx rules (r, [])

theorem applySecurityRules_forall2 (rx : RegexSearch) (rules : List Rule)
    (records : List Record) :
    List.Forall₂ WlMono records (applySecurityRules rx rules records) := by
  unfold applySecurityRules
  dsimp only
  split
  · exact List.forall₂_same.mpr (fun a _ h => h)
  · apply forall2_map_self_mem
    intro a _ h
    split
    · rw [processSecurityRecord_whitelisted]; exact h
    · exact h

theorem applySecurityRules_ids (rx : RegexSearch) (rules : List Rule)
    (records : List Record) :
    (applySecurityRules rx rules records).map Record.recordId =
      records.map Record.recordId := by
  unfold applySecurityRules
  dsimp only
  split
  · rfl
  · rw [List.map_map]
    apply List.map_congr_left
    intro a _
    show (if securityEligible a = true then _ else a).recordId = a.recordId
    split
    · exact processSecurityRecord_recordId rx _ a
    · rfl

theorem clearStages_wl_forall2 (records : List Record) :
    List.Forall₂ WlMono records (clearStages ["whitelist"] records) := by
  unfold clearStages
  apply forall2_map_self_mem
  intro a _ h
  exact h

theorem clearStages_wl_ids (records : List Record) :
    (clearStages ["whitelist"] records).map Record.recordId =
      records.map Record.recordId := by
  unfold clearStages
  rw [List.map_map]
  exact List.map_congr_left (fun a _ => rfl)

/-- C3 counterexample: reprocessing with `skip_stages=["whitelist"]` still
re-executes the whitelist stage, so a record whose domain matches the
current whitelist flips from `whitelisted=False` to `whitelisted=True`
during the call — the flag is not left exactly as it was. -/
theorem c3_counterexample_flag_changed :
    c3Rec.whitelisted = some false ∧
    (reprocessSession rxNone fitNone c3Env ["whitelist"] [c3Rec]).map Record.whitelisted =
      [some true] := by
  refine ⟨rfl, ?_⟩
  with_unfolding_all rfl

/-- C3 amended: `reprocess(skip_stages=["whitelist"])` clears and recomputes
only the exclusion, rule and ML outputs while re-executing all four stages;
the whitelist flags are never cleared — in a session with distinct record
ids, every record whitelisted before the call is still whitelisted after
(pointwise monotonicity of the flag), though the re-run whitelist stage may
newly set flags. -/
theorem c3_amended_whitelist_flag_monotone (rx : RegexSearch) (fit : AnomalyFit)
    (env : PipelineEnv) (records : List Record)
    (hnd : (records.map Record.recordId).Nodup) :
    List.Forall₂ WlMono records (reprocessSession rx fit env ["whitelist"] records) := by
  unfold reprocessSession applyWorkflowRecords
  have h1 := clearStages_wl_forall2 records
  have h2 := applyExclusionRules_forall2 rx env.rules (clearStages ["whitelist"] records)
  have h3 := applyWhitelistFiltering_forall2 env.whitelist
    (applyExclusionRules rx env.rules (clearStages ["whitelist"] records))
  have h4 := applySecurityRules_forall2 rx env.rules
    (applyWhitelistFiltering env.whitelist
      (applyExclusionRules rx env.rules (clearStages ["whitelist"] records)))
  have hnd4 : ((applySecurityRules rx env.rules
      (applyWhitelistFiltering env.whitelist
        (applyExclusionRules rx env.rules
          (clearStages ["whitelist"] records)))).map Record.recordId).Nodup := by
    rw [applySecurityRules_ids, applyWhitelistFiltering_ids, applyExclusionRules_ids,
      clearStages_wl_ids]
    exact hnd
  have h5 := mlAnalyze_forall2 env.mlConfig fit env.keywords
    (applySecurityRules rx env.rules
      (applyWhitelistFiltering env.whitelist
        (applyExclusionRules rx env.rules (clearStages ["whitelist"] records)))) hnd4
  exact forall2_trans_of wlMono_trans
    (forall2_trans_of wlMono_trans
      (forall2_trans_of wlMono_trans
        (forall2_trans_of wlMono_trans h1 h2) h3) h4) h5

/-- C3 amended witness: the monotonicity applied to a concrete one-record
session. -/
theorem c3_amended_whitelist_flag_monotone_witness :
    List.Forall₂ WlMono [c3Rec] (reprocessSession rxNone fitNone c3Env ["whitelist"] [c3Rec]) :=
  c3_amended_whitelist_flag_monotone rxNone fitNone c3Env [c3Rec] (by simp)

end DlpTriage
